import Mathlib

/-!
Shallow embedding of the telemetry-ingestion core of `dataarm_notifier`:
the CAN metrics processor (`telemetry/can_metrics_server.py`) and the arm
sample processor (`telemetry/arm_telemetry_server.py`), together with the
health state machine, mapping registry, pair-loss state and idle tracker.

Numeric values are modelled as exact rationals (`ℚ`); Python dicts are
modelled as insertion-ordered association lists; the Rerun sink is modelled
as a list of emitted events per processed message.
-/

namespace DataarmNotifier

/-- `StatusLevel` from `telemetry/enums.py`. -/
inductive StatusLevel where
  | INFO
  | WARNING
  | ERROR
deriving DecidableEq, Repr

/-- Association-list lookup, modelling `dict.get(k)` (last write wins, see
`insertD`). -/
def lookupD {α : Type} [DecidableEq α] {β : Type} : List (α × β) → α → Option β
  | [], _ => none
  | (k, v) :: rest, key => if k = key then some v else lookupD rest key

/-- Association-list insert/overwrite, modelling `d[k] = v`. -/
def insertD {α : Type} [DecidableEq α] {β : Type} : List (α × β) → α → β → List (α × β)
  | [], key, val => [(key, val)]
  | (k, v) :: rest, key, val =>
    if k = key then (key, val) :: rest else (k, v) :: insertD rest key val

/-- The markdown / formatted-string content of the status messages built in
`CANMetricsServer._update_can_status`; string formatting of the floats is
abstracted to the data being formatted. -/
inductive StatusMessage where
  | critical (busLoad errorRate : ℚ)
  | warning (busLoad : ℚ)
  | nominal
deriving DecidableEq, Repr

/-- An event written to the Rerun sink by the CAN metrics server. -/
inductive Emit where
  | scalar (path : String) (value : ℚ)
  | statusDoc (level : StatusLevel) (message : StatusMessage)
      (busLoad errorRate dropRate : ℚ)
  | textLog (path message : String)
deriving DecidableEq, Repr

/-- Mutable state of one `CANMetricsServer` instance (its registry, health
status and pair-loss state). -/
structure CANState where
  canIdToName : List (Int × String)
  canIdToJointId : List (Int × Int)
  canIdMap : List (Int × Int)
  lastStatus : StatusLevel
  statusMessage : StatusMessage
  lastPairCounts : List (Int × (Int × Int))
deriving DecidableEq, Repr

/-- `CANMetricsServer.__init__`: empty registry, status `INFO`, no pair
counts. -/
def canInit : CANState :=
  { canIdToName := []
    canIdToJointId := []
    canIdMap := []
    lastStatus := .INFO
    statusMessage := .nominal
    lastPairCounts := [] }

/-- The status/message decision chain of
`CANMetricsServer._update_can_status` (lines 261-269); the threshold
`0.1` is the rational `mkRat 1 10` (see `Rat.mkRat_eq_div`). -/
def canStatusAndMessage (busLoad errorRate dropRate : ℚ) :
    StatusLevel × StatusMessage :=
  if busLoad ≥ 80 ∨ errorRate > 1 then
    (.ERROR, .critical busLoad errorRate)
  else if busLoad ≥ 50 ∨ errorRate > mkRat 1 10 ∨ dropRate > mkRat 1 10 then
    (.WARNING, .warning busLoad)
  else
    (.INFO, .nominal)

/-- The newly computed health level. -/
def computeStatus (busLoad errorRate dropRate : ℚ) : StatusLevel :=
  (canStatusAndMessage busLoad errorRate dropRate).1

/-- `CANMetricsServer._update_can_status`: recompute the level and, exactly
when it differs from the stored one, update the stored level/message and
emit a status document. -/
def updateCanStatus (st : CANState) (busLoad errorRate dropRate : ℚ) :
    CANState × List Emit :=
  let newStatus := (canStatusAndMessage busLoad errorRate dropRate).1
  let message := (canStatusAndMessage busLoad errorRate dropRate).2
  if newStatus ≠ st.lastStatus then
    ({ st with lastStatus := newStatus, statusMessage := message },
     [.statusDoc newStatus message busLoad errorRate dropRate])
  else
    (st, [])

/-- One value of `per_pair_rtt` in a metrics message: `rtt_mean_ms`,
`rtt_p95_ms`, cumulative `timeout_count` and `sample_count` (missing fields
defaulted to 0 by the `.get(..., 0)` calls). -/
structure PairStats where
  rttMean : ℚ
  rttP95 : ℚ
  timeoutCount : Int
  sampleCount : Int
deriving DecidableEq, Repr

/-- One value of `per_id_stats`: `fps_window`, `dt_mean_ms`, `dt_p95_ms`. -/
structure IdStats where
  fpsWindow : ℚ
  dtMean : ℚ
  dtP95 : ℚ
deriving DecidableEq, Repr

/-- A decoded `metrics` message `data` object. A `per_pair_rtt` key is
`some (send_id, recv_id)` when `ast.literal_eval` + `int(...)` parse it,
`none` when that raises; a `per_id_stats` key is `none` when `int(key)`
raises. Lists keep the dict's insertion order. -/
structure MetricsData where
  busLoad : ℚ
  totalFrames : ℚ
  activeIds : ℚ
  errorRate : ℚ
  dropRate : ℚ
  perPairRtt : List (Option (Int × Int) × PairStats)
  perIdStats : List (Option Int × IdStats)
deriving DecidableEq, Repr

/-- Joint-id resolution for a `(send_id, recv_id)` pair
(`_handle_metrics` lines 202-206): prefer the joint id mapped from the
receive id, fall back to the send id's mapping, fall back to the raw
receive id. -/
def resolveJointId (st : CANState) (sendId recvId : Int) : Int :=
  match lookupD st.canIdToJointId recvId with
  | some jointId => jointId
  | none =>
    match lookupD st.canIdToJointId sendId with
    | some jointId => jointId
    | none => recvId

/-- Python `max` on two ints (an executable rendering of `max`, see
`maxInt_eq_max`). -/
def maxInt (a b : Int) : Int := if a ≤ b then b else a

/-- Body of the `per_pair_rtt` loop in `_handle_metrics` (lines 196-218),
without the unconditional `rtt_values.append` (hoisted into
`handleMetrics`): an unparseable key hits the `except` clause and
produces nothing; a parsed key emits per-joint RTT and loss rate and
replaces the stored cumulative counts. -/
def processPair (st : CANState) (key : Option (Int × Int))
    (stats : PairStats) : CANState × List Emit :=
  match key with
  | none => (st, [])
  | some (sendId, recvId) =>
    let jointId := resolveJointId st sendId recvId
    let prev := (lookupD st.lastPairCounts jointId).getD (0, 0)
    let deltaTimeout : Int := maxInt 0 (stats.timeoutCount - prev.1)
    let deltaSample : Int := maxInt 0 (stats.sampleCount - prev.2)
    let st2 := { st with
      lastPairCounts :=
        insertD st.lastPairCounts jointId (stats.timeoutCount, stats.sampleCount) }
    let lossRate : ℚ :=
      (deltaTimeout : ℚ) / ((maxInt 1 (deltaTimeout + deltaSample) : Int) : ℚ)
    (st2,
     [.scalar ("can/rtt/" ++ toString jointId) stats.rttMean,
      .scalar ("can/loss/" ++ toString jointId) lossRate])

/-- The `per_pair_rtt` loop, in dict order. -/
def processPairs (st : CANState)
    (entries : List (Option (Int × Int) × PairStats)) : CANState × List Emit :=
  match entries with
  | [] => (st, [])
  | entry :: rest =>
    let step := processPair st entry.1 entry.2
    let rec2 := processPairs step.1 rest
    (rec2.1, step.2 ++ rec2.2)

/-- Insert a value into an ascending-sorted list of rationals. -/
def insertSorted (x : ℚ) : List ℚ → List ℚ
  | [] => [x]
  | y :: rest => if x ≤ y then x :: y :: rest else y :: insertSorted x rest

/-- Ascending sort (Python `sorted`). -/
def sortQ (l : List ℚ) : List ℚ := l.foldr insertSorted []

/-- The index `int(len(rtt_values) * 0.95)` used by `_handle_metrics`:
`0.95 × n` truncated toward zero, i.e. `⌊19n/20⌋`, computed by natural
division (see `aggIdx_eq_floor`). -/
def aggIdx (n : Nat) : Nat := 19 * n / 20

/-- The aggregate-RTT block of `_handle_metrics` (lines 221-226):
mean of the collected `rtt_mean_ms` values and the value at index
`int(len(rtt_values) * 0.95)` of those values sorted ascending. -/
def aggregateRttEmits (rttValues : List ℚ) : List Emit :=
  if rttValues = [] then []
  else
    let rttMeanAll := rttValues.sum / (rttValues.length : ℚ)
    let rttP95All := (sortQ rttValues).getD (aggIdx rttValues.length) 0
    [.scalar "can/rtt/mean" rttMeanAll,
     .scalar "can/rtt/p95" rttP95All,
     .scalar "can/rtt/q95" rttP95All]

/-- Body of the `per_id_stats` loop (lines 230-245): a key that fails
`int(...)` produces nothing; otherwise fps/jitter stats are emitted for the
joint id resolved from the CAN id (falling back to the CAN id itself). -/
def processIdStats (st : CANState) (key : Option Int) (stats : IdStats) :
    List Emit :=
  match key with
  | none => []
  | some canId =>
    let jointId := (lookupD st.canIdToJointId canId).getD canId
    [.scalar ("can/fps/" ++ toString jointId) stats.fpsWindow,
     .scalar ("can/jitter/" ++ toString jointId) stats.dtMean,
     .scalar ("can/jitter_p95/" ++ toString jointId) stats.dtP95,
     .scalar ("can/jitter_q95/" ++ toString jointId) stats.dtP95]

/-- The `per_id_stats` loop, in dict order (it never mutates state). -/
def processIdStatsAll (st : CANState) (entries : List (Option Int × IdStats)) :
    List Emit :=
  match entries with
  | [] => []
  | entry :: rest => processIdStats st entry.1 entry.2 ++ processIdStatsAll st rest

/-- `CANMetricsServer._handle_metrics`: bus scalars, the `per_pair_rtt`
loop with aggregate RTT statistics, the `per_id_stats` loop, then the
health-status update. -/
def handleMetrics (st : CANState) (d : MetricsData) : CANState × List Emit :=
  let busEmits : List Emit :=
    [.scalar "can/bus/load" d.busLoad,
     .scalar "can/bus/frames_total" d.totalFrames,
     .scalar "can/bus/active_ids" d.activeIds,
     .scalar "can/bus/errors_per_s" d.errorRate,
     .scalar "can/bus/drops_per_s" d.dropRate]
  let rttValues := d.perPairRtt.map (fun entry => entry.2.rttMean)
  let pairResult := processPairs st d.perPairRtt
  let aggEmits := aggregateRttEmits rttValues
  let idEmits := processIdStatsAll pairResult.1 d.perIdStats
  let statusResult := updateCanStatus pairResult.1 d.busLoad d.errorRate d.dropRate
  (statusResult.1,
   busEmits ++ pairResult.2 ++ aggEmits ++ idEmits ++ statusResult.2)

/-- A decoded `mapping` message `data` object
(`CANMetricsServer._handle_mapping`). A `joint_names` key is `none` when
`int(key)` raises; a `joint_ids` or `can_id_map` entry is `none` when
either of its `int(...)` conversions raises (the `except` skips the whole
entry). -/
structure MappingData where
  jointNames : List (Option Int × String)
  jointIds : List (Option (Int × Int))
  canIdMap : List (Option (Int × Int))
deriving DecidableEq, Repr

/-- `CANMetricsServer._handle_mapping`: merge the three maps into the
registry, later entries overwriting earlier ones for the same key;
non-coercible entries are skipped silently. -/
def handleMapping (st : CANState) (d : MappingData) : CANState :=
  let st1 := d.jointNames.foldl
    (fun s entry =>
      match entry.1 with
      | some canId => { s with canIdToName := insertD s.canIdToName canId entry.2 }
      | none => s) st
  let st2 := d.jointIds.foldl
    (fun s entry =>
      match entry with
      | some (canId, jointId) =>
        { s with canIdToJointId := insertD s.canIdToJointId canId jointId }
      | none => s) st1
  d.canIdMap.foldl
    (fun s entry =>
      match entry with
      | some (sendId, recvId) =>
        { s with canIdMap := insertD s.canIdMap sendId recvId }
      | none => s) st2

/-- Is this sink event the markdown status document? -/
def isStatusDoc : Emit → Bool
  | .statusDoc _ _ _ _ _ => true
  | _ => false

/-- Number of status documents among the events emitted for one message. -/
def countStatusDocs (es : List Emit) : Nat := es.countP isStatusDoc

/-- Value of the first scalar emitted at exactly `path`. -/
def firstScalar : List Emit → String → Option ℚ
  | [], _ => none
  | .scalar p v :: rest, path =>
    if p = path then some v else firstScalar rest path
  | _ :: rest, path => firstScalar rest path

/-- The Rerun entity path an event is written to (the status document goes
to `notify/dashboard`, CAN events to `notify/log`). -/
def emitPath : Emit → String
  | .scalar path _ => path
  | .statusDoc _ _ _ _ _ => "notify/dashboard"
  | .textLog path _ => path

/-! ### Arm telemetry server (`telemetry/arm_telemetry_server.py`) -/

/-- Python `min` on two naturals (an executable rendering of `min`, see
`minNat_eq_min`). -/
def minNat (a b : Nat) : Nat := if a ≤ b then a else b

/-- Python `abs` on a rational (an executable rendering of `|·|`, see
`absQ_eq_abs`). -/
def absQ (q : ℚ) : ℚ := if q < 0 then -q else q

/-- A decoded `sample` message `data` object. For the four required vectors
and the optional vectors, `none` models a field that is missing or not a
list (`isinstance(x, list)` false); element values are the rationals the
`float(...)` conversions produce. -/
structure SampleData where
  target : Option (List ℚ)
  traj : Option (List ℚ)
  pos : Option (List ℚ)
  vel : Option (List ℚ)
  torque : Option (List ℚ)
  jointNames : Option (List String)
  velFiltered : Option (List ℚ)
  accFiltered : Option (List ℚ)
  velBoundary : Option (List ℚ)
  trajVelFiltered : Option (List ℚ)
deriving DecidableEq, Repr

/-- An event written to the Rerun sink by the arm telemetry server. The
`none` entries of `posTriple`/`velQuad` model the `float("nan")` fillers
logged for absent optional values; `pausingCamera`/`resumedCamera` are the
two idle-span text events of `_log_arm_event`. -/
inductive ArmEmit where
  | posTriple (joint : String) (target actual : ℚ) (traj : Option ℚ)
  | velQuad (joint : String) (raw filtered : ℚ) (boundary trajVel : Option ℚ)
  | trackingError (joint : String) (value : ℚ)
  | accScalar (joint : String) (value : ℚ)
  | torqueScalar (joint : String) (value : ℚ)
  | textLog (level msg : String)
  | gripperScalar (name field : String) (value : ℚ)
  | image (position name jpeg : String)
  | pausingCamera (idleFor : ℚ)
  | resumedCamera
  | jointGridBlueprint (names : List String)
  | seriesStyle (name : String)
deriving DecidableEq, Repr

/-- Mutable state of one `ArmTelemetryServer` instance: idle-tracker
configuration and state, established joint names and the blueprint
guard. -/
structure ArmState where
  idleTimeoutS : Option ℚ
  dropCameraWhenIdle : Bool
  lastArmSampleMonoS : ℚ
  loggedIdleForCamera : Bool
  jointNames : List String
  blueprintSent : Bool
deriving DecidableEq, Repr

/-- `ArmTelemetryServer.__init__` after its normalisation: a configured
timeout that is not positive is treated as absent; the last-sample clock
starts at the construction time `startMonoS`. -/
def armInit (idleTimeoutS : Option ℚ) (dropCameraWhenIdle : Bool)
    (startMonoS : ℚ) : ArmState :=
  { idleTimeoutS :=
      match idleTimeoutS with
      | some t => if t ≤ 0 then none else some t
      | none => none
    dropCameraWhenIdle := dropCameraWhenIdle
    lastArmSampleMonoS := startMonoS
    loggedIdleForCamera := false
    jointNames := []
    blueprintSent := false }

/-- `ArmTelemetryServer._arm_is_active`: true when no timeout is
configured, else when the time since the last sample is within the
timeout. -/
def armIsActive (st : ArmState) (nowMonoS : ℚ) : Bool :=
  match st.idleTimeoutS with
  | none => true
  | some t => decide (nowMonoS - st.lastArmSampleMonoS ≤ t)

/-- The guarded "pausing camera telemetry" log shared by the fast path in
`_handle_client` and the `camera_frame` branch of `_process_message`:
emit once per idle span, then set the logged flag. -/
def logPausingOnce (st : ArmState) (nowMonoS : ℚ) : ArmState × List ArmEmit :=
  if st.loggedIdleForCamera then (st, [])
  else
    ({ st with loggedIdleForCamera := true },
     [.pausingCamera (nowMonoS - st.lastArmSampleMonoS)])

/-- Synthetic positional joint identifier: `j1..jn`. -/
def jointName (i : Nat) : String := "j" ++ toString (i + 1)

/-- Optional-vector element access: `x[i]` when `isinstance(x, list)` and
`i < len(x)`, absent otherwise. -/
def optAt (o : Option (List ℚ)) (i : Nat) : Option ℚ :=
  o.bind fun l => l[i]?

/-- `_send_joint_grid_blueprint`: guarded by `_blueprint_sent`, so the
layout is sent at most once per connection lifetime. -/
def sendJointGridBlueprint (st : ArmState) (names : List String) :
    ArmState × List ArmEmit :=
  if st.blueprintSent then (st, [])
  else ({ st with blueprintSent := true }, [.jointGridBlueprint names])

/-- `_log_static_series_styles`: one static `SeriesLines` log per joint. -/
def logStaticSeriesStyles (names : List String) : List ArmEmit :=
  names.map ArmEmit.seriesStyle

/-- Body of the per-joint fan-out loop of `_process_message`
(lines 348-391) for joint index `i`. -/
def jointEmitsFor (traj velFiltered accFiltered velBoundary
      trajVelFiltered : Option (List ℚ)) (target pos vel torque : List ℚ)
    (i : Nat) : List ArmEmit :=
  let name := jointName i
  let tgt := target.getD i 0
  let actual := pos.getD i 0
  let trajVal := optAt traj i
  let velRaw := vel.getD i 0
  let velFiltVal := (optAt velFiltered i).getD velRaw
  let boundaryVal := optAt velBoundary i
  let trajVelVal := optAt trajVelFiltered i
  [ArmEmit.posTriple name tgt actual trajVal,
   ArmEmit.velQuad name velRaw velFiltVal boundaryVal trajVelVal,
   ArmEmit.trackingError name (absQ (tgt - actual))] ++
  (match optAt accFiltered i with
   | some v => [ArmEmit.accScalar name v]
   | none => []) ++
  [ArmEmit.torqueScalar name (torque.getD i 0)]

/-- The whole per-joint fan-out loop, for joints `0..n-1`. -/
def sampleJointEmits (traj velFiltered accFiltered velBoundary
      trajVelFiltered : Option (List ℚ)) (target pos vel torque : List ℚ)
    (n : Nat) : List ArmEmit :=
  (List.range n).flatMap (jointEmitsFor traj velFiltered accFiltered
    velBoundary trajVelFiltered target pos vel torque)

/-- A decoded arm-server message: the `type`-dispatch of
`_process_message`. The `event`, `gripper_sample` and `camera_frame`
payloads carry the values after the `str(... or default)` coercions; a
gripper field is `none` when absent or non-numeric; a camera `jpeg` is
`none` when absent or not a string. -/
inductive ArmMsg where
  | sample (data : SampleData)
  | armEvent (level msg : String)
  | gripperSample (name : String) (pos target velocity : Option ℚ)
      (torqueEnabled : Option Bool)
  | cameraFrame (name position : String) (jpeg : Option String)
  | unknown (tag : String)
deriving DecidableEq, Repr

/-- `ArmTelemetryServer._process_message` on one decoded message at
monotonic time `nowMonoS`. -/
def processMessage (st : ArmState) (nowMonoS : ℚ) :
    ArmMsg → ArmState × List ArmEmit
  | .armEvent level msg =>
    (st, if msg = "" then [] else [.textLog level msg])
  | .gripperSample name pos target velocity torqueEnabled =>
    (st,
     (match pos with
      | some v => [ArmEmit.gripperScalar name "pos" v]
      | none => []) ++
     (match target with
      | some v => [ArmEmit.gripperScalar name "target" v]
      | none => []) ++
     (match velocity with
      | some v => [ArmEmit.gripperScalar name "vel" v]
      | none => []) ++
     (match torqueEnabled with
      | some b => [ArmEmit.gripperScalar name "torque_enabled"
          (if b then 1 else 0)]
      | none => []))
  | .cameraFrame name position jpeg =>
    if st.dropCameraWhenIdle && st.idleTimeoutS.isSome &&
        !(armIsActive st nowMonoS) then
      logPausingOnce st nowMonoS
    else
      match jpeg with
      | none => (st, [])
      | some s => if s = "" then (st, []) else (st, [.image position name s])
  | .unknown _ => (st, [])
  | .sample data =>
    let wasIdle := st.dropCameraWhenIdle && st.idleTimeoutS.isSome &&
      !(armIsActive st nowMonoS)
    let stTime := { st with lastArmSampleMonoS := nowMonoS }
    let resumeEmits : List ArmEmit :=
      if wasIdle && stTime.loggedIdleForCamera then [.resumedCamera] else []
    let stIdle :=
      if wasIdle then { stTime with loggedIdleForCamera := false } else stTime
    match data.target, data.pos, data.vel, data.torque with
    | some target, some pos, some vel, some torque =>
      let n := minNat (minNat (minNat target.length pos.length) vel.length)
        torque.length
      let names := (List.range n).map jointName
      let stNamed := { stIdle with jointNames := names }
      let stFinal :=
        if stIdle.jointNames.isEmpty then
          (sendJointGridBlueprint stNamed names).1
        else stIdle
      let initEmits : List ArmEmit :=
        if stIdle.jointNames.isEmpty then
          (sendJointGridBlueprint stNamed names).2 ++
            logStaticSeriesStyles names
        else []
      (stFinal,
       resumeEmits ++ initEmits ++
         sampleJointEmits data.traj data.velFiltered data.accFiltered
           data.velBoundary data.trajVelFiltered target pos vel torque n)
    | _, _, _, _ => (stIdle, resumeEmits)

/-- One received line of the arm server's `_handle_client` loop:
whether the raw bytes contain the `camera_frame` type marker (checked
before JSON decoding), and the decoded message (`none` when
`json.loads` raises). -/
structure RawLine where
  hasCameraMarker : Bool
  decoded : Option ArmMsg
deriving DecidableEq, Repr

/-- The body of `_handle_client` for one line: the idle fast path drops
marker-bearing lines before JSON decoding (logging "pausing" once per
idle span); otherwise the decoded message is processed. -/
def armStep (st : ArmState) (nowMonoS : ℚ) (line : RawLine) :
    ArmState × List ArmEmit :=
  if st.dropCameraWhenIdle && st.idleTimeoutS.isSome &&
      !(armIsActive st nowMonoS) && line.hasCameraMarker then
    logPausingOnce st nowMonoS
  else
    match line.decoded with
    | none => (st, [])
    | some msg => processMessage st nowMonoS msg

/-- The position-series emits (`arm/joints/<j>/pos`) of a message. -/
def posTriples (es : List ArmEmit) : List (String × ℚ × ℚ × Option ℚ) :=
  es.filterMap fun e =>
    match e with
    | .posTriple n t a tr => some (n, t, a, tr)
    | _ => none

/-- The velocity-series emits (`arm/joints/<j>/vel`) of a message. -/
def velQuads (es : List ArmEmit) :
    List (String × ℚ × ℚ × Option ℚ × Option ℚ) :=
  es.filterMap fun e =>
    match e with
    | .velQuad n r f b tv => some (n, r, f, b, tv)
    | _ => none

/-- The filtered-acceleration emits (`arm/joints/<j>/acc`) of a message. -/
def accScalars (es : List ArmEmit) : List (String × ℚ) :=
  es.filterMap fun e =>
    match e with
    | .accScalar n v => some (n, v)
    | _ => none

/-- The torque emits (`arm/joints/<j>/torque`) of a message. -/
def torqueScalars (es : List ArmEmit) : List (String × ℚ) :=
  es.filterMap fun e =>
    match e with
    | .torqueScalar n v => some (n, v)
    | _ => none

/-- Is this event an encoded camera image forwarded to the sink? -/
def isImage : ArmEmit → Bool
  | .image _ _ _ => true
  | _ => false

/-- Is this event the "pausing camera telemetry" idle log? -/
def isPausing : ArmEmit → Bool
  | .pausingCamera _ => true
  | _ => false

/-- Is this event the "arm telemetry resumed" log? -/
def isResumed : ArmEmit → Bool
  | .resumedCamera => true
  | _ => false

/-- Is this event the one-time joint-grid layout initialization? -/
def isBlueprint : ArmEmit → Bool
  | .jointGridBlueprint _ => true
  | _ => false

/-- Is this event one of the five per-joint data series? -/
def isJointData : ArmEmit → Bool
  | .posTriple _ _ _ _ => true
  | .velQuad _ _ _ _ _ => true
  | .trackingError _ _ => true
  | .accScalar _ _ => true
  | .torqueScalar _ _ => true
  | _ => false

end DataarmNotifier

namespace DataarmNotifier

/-- C1: the computed health level is ERROR iff `bus_load ≥ 80` or
`error_rate > 1.0`; otherwise WARNING iff `bus_load ≥ 50` or
`error_rate > 0.1` or `drop_rate > 0.1`; otherwise INFO. -/
theorem computeStatus_spec (busLoad errorRate dropRate : ℚ) :
    (computeStatus busLoad errorRate dropRate = .ERROR ↔
      busLoad ≥ 80 ∨ errorRate > 1) ∧
    (computeStatus busLoad errorRate dropRate = .WARNING ↔
      ¬(busLoad ≥ 80 ∨ errorRate > 1) ∧
        (busLoad ≥ 50 ∨ errorRate > 1/10 ∨ dropRate > 1/10)) ∧
    (computeStatus busLoad errorRate dropRate = .INFO ↔
      ¬(busLoad ≥ 80 ∨ errorRate > 1) ∧
        ¬(busLoad ≥ 50 ∨ errorRate > 1/10 ∨ dropRate > 1/10)) := by
  unfold computeStatus canStatusAndMessage
  rw [show (mkRat 1 10 : ℚ) = 1/10 by rw [Rat.mkRat_eq_div]; norm_num]
  split_ifs with h1 h2 <;>
    simp_all

theorem lookupD_insertD_self {α : Type} [DecidableEq α] {β : Type}
    (l : List (α × β)) (k : α) (v : β) :
    lookupD (insertD l k v) k = some v := by
  induction l with
  | nil => simp [insertD, lookupD]
  | cons head tail ih =>
    obtain ⟨hk, hv⟩ := head
    by_cases h : hk = k
    · simp [insertD, h, lookupD]
    · simp [insertD, h, lookupD, ih]

theorem processPair_preserves_status (st : CANState)
    (key : Option (Int × Int)) (stats : PairStats) :
    (processPair st key stats).1.lastStatus = st.lastStatus ∧
    (processPair st key stats).1.statusMessage = st.statusMessage ∧
    countStatusDocs (processPair st key stats).2 = 0 := by
  rcases key with _ | ⟨sendId, recvId⟩ <;>
    simp [processPair, countStatusDocs, isStatusDoc]

theorem processPairs_preserves_status (st : CANState)
    (entries : List (Option (Int × Int) × PairStats)) :
    (processPairs st entries).1.lastStatus = st.lastStatus ∧
    (processPairs st entries).1.statusMessage = st.statusMessage ∧
    countStatusDocs (processPairs st entries).2 = 0 := by
  induction entries generalizing st with
  | nil => simp [processPairs, countStatusDocs]
  | cons entry rest ih =>
    have hstep := processPair_preserves_status st entry.1 entry.2
    have hrec := ih (processPair st entry.1 entry.2).1
    refine ⟨?_, ?_, ?_⟩
    · simp only [processPairs]
      rw [hrec.1, hstep.1]
    · simp only [processPairs]
      rw [hrec.2.1, hstep.2.1]
    · simp only [processPairs, countStatusDocs, List.countP_append]
      have h1 := hstep.2.2
      have h2 := hrec.2.2
      simp only [countStatusDocs] at h1 h2
      omega

theorem countStatusDocs_processIdStatsAll (st : CANState)
    (entries : List (Option Int × IdStats)) :
    countStatusDocs (processIdStatsAll st entries) = 0 := by
  induction entries with
  | nil => simp [processIdStatsAll, countStatusDocs]
  | cons entry rest ih =>
    have hstep : countStatusDocs (processIdStats st entry.1 entry.2) = 0 := by
      rcases entry with ⟨key, stats⟩
      rcases key with _ | canId <;>
        simp [processIdStats, countStatusDocs, isStatusDoc]
    simp only [processIdStatsAll, countStatusDocs, List.countP_append]
    simp only [countStatusDocs] at hstep ih
    omega

theorem countStatusDocs_aggregateRttEmits (rttValues : List ℚ) :
    countStatusDocs (aggregateRttEmits rttValues) = 0 := by
  unfold aggregateRttEmits
  split_ifs <;> simp [countStatusDocs, isStatusDoc]

/-- C2: processing one metrics message emits a status document iff the
newly computed level differs from the currently stored level (so
re-computing the same level never re-emits), and the stored level and
message change exactly when a document is emitted. Stated for every
stored state, which covers every state reachable from the initial INFO
state along any sequence of processed messages. -/
theorem handleMetrics_transition_iff (st : CANState) (d : MetricsData) :
    countStatusDocs (handleMetrics st d).2 =
      (if computeStatus d.busLoad d.errorRate d.dropRate = st.lastStatus
       then 0 else 1) ∧
    (handleMetrics st d).1.lastStatus =
      computeStatus d.busLoad d.errorRate d.dropRate ∧
    (handleMetrics st d).1.statusMessage =
      (if computeStatus d.busLoad d.errorRate d.dropRate = st.lastStatus
       then st.statusMessage
       else (canStatusAndMessage d.busLoad d.errorRate d.dropRate).2) := by
  have hp := processPairs_preserves_status st d.perPairRtt
  have hid := countStatusDocs_processIdStatsAll
    (processPairs st d.perPairRtt).1 d.perIdStats
  have hagg := countStatusDocs_aggregateRttEmits
    (d.perPairRtt.map (fun entry => entry.2.rttMean))
  simp only [countStatusDocs] at hp hid hagg ⊢
  simp only [handleMetrics, updateCanStatus, computeStatus, hp.1]
  by_cases h :
      (canStatusAndMessage d.busLoad d.errorRate d.dropRate).1 = st.lastStatus
  · simp [h, List.countP_append, hp.1, hp.2.1, hp.2.2, hid, hagg, isStatusDoc]
  · simp [h, List.countP_append, hp.1, hp.2.1, hp.2.2, hid, hagg, isStatusDoc]

theorem maxInt_eq_max (a b : Int) : maxInt a b = max a b := by
  rw [maxInt, max_def]

/-- C3: for a per_pair_rtt entry with parsed key, with `(prevT, prevS)` the
stored previous cumulative counts for the resolved joint id (defaulting to
`(0, 0)` on first receipt), the emitted loss rate equals
`max 0 (timeout − prevT) / max 1 (max 0 (timeout − prevT) + max 0 (sample − prevS))`,
the new cumulative counts replace the stored previous values, and the loss
rate lies in `[0, 1]` even when the new cumulative counters are lower than
the previously seen ones. -/
theorem processPair_lossRate (st : CANState) (sendId recvId : Int)
    (stats : PairStats) :
    let jointId := resolveJointId st sendId recvId
    let prev := (lookupD st.lastPairCounts jointId).getD (0, 0)
    let lossRate : ℚ :=
      ((max 0 (stats.timeoutCount - prev.1) : Int) : ℚ) /
        ((max 1 (max 0 (stats.timeoutCount - prev.1) +
                 max 0 (stats.sampleCount - prev.2)) : Int) : ℚ)
    (processPair st (some (sendId, recvId)) stats).2 =
      [.scalar ("can/rtt/" ++ toString jointId) stats.rttMean,
       .scalar ("can/loss/" ++ toString jointId) lossRate] ∧
    lookupD (processPair st (some (sendId, recvId)) stats).1.lastPairCounts
        jointId = some (stats.timeoutCount, stats.sampleCount) ∧
    0 ≤ lossRate ∧ lossRate ≤ 1 := by
  intro jointId prev lossRate
  refine ⟨?_, ?_, ?_, ?_⟩
  · simp only [processPair, maxInt_eq_max]
  · exact lookupD_insertD_self st.lastPairCounts jointId _
  · apply div_nonneg
    · exact_mod_cast le_max_left 0 (stats.timeoutCount - prev.1)
    · have : (1 : Int) ≤ max 1 (max 0 (stats.timeoutCount - prev.1) +
          max 0 (stats.sampleCount - prev.2)) := le_max_left 1 _
      have h0 : (0 : Int) ≤ max 1 (max 0 (stats.timeoutCount - prev.1) +
          max 0 (stats.sampleCount - prev.2)) := by omega
      exact_mod_cast h0
  · rw [div_le_one]
    · have hnum : max 0 (stats.timeoutCount - prev.1) ≤
          max 1 (max 0 (stats.timeoutCount - prev.1) +
            max 0 (stats.sampleCount - prev.2)) := by
        have h1 : (0 : Int) ≤ max 0 (stats.sampleCount - prev.2) :=
          le_max_left 0 _
        have h2 := le_max_right (1 : Int)
          (max 0 (stats.timeoutCount - prev.1) +
            max 0 (stats.sampleCount - prev.2))
        omega
      exact_mod_cast hnum
    · have hpos : (0 : Int) < max 1 (max 0 (stats.timeoutCount - prev.1) +
          max 0 (stats.sampleCount - prev.2)) := by
        have := le_max_left (1 : Int) (max 0 (stats.timeoutCount - prev.1) +
          max 0 (stats.sampleCount - prev.2))
        omega
      exact_mod_cast hpos

/-- The natural-division index `aggIdx n = 19n/20` agrees with
`⌊n × 0.95⌋`, the value of Python's `int(len * 0.95)` here. -/
theorem aggIdx_eq_floor (n : Nat) :
    aggIdx n = (Int.floor ((n : ℚ) * (19/20))).toNat := by
  have hcast : (n : ℚ) * (19/20) = ((19 * n : ℕ) : ℚ) / ((20 : ℕ) : ℚ) := by
    push_cast
    ring
  rw [hcast, Int.floor_toNat, Nat.floor_div_nat, Nat.floor_natCast]
  rfl

/-- C4 (amended): for a metrics message with non-empty `per_pair_rtt`, the
emitted aggregate RTT mean is the arithmetic mean of the pairs' RTT mean
values, and the emitted 95th percentile is the value at index
`⌊0.95 × count⌋` of those values sorted ascending — which coincides with
the nearest-rank index `⌈0.95 × count⌉ − 1` except when `0.95 × count` is
an integer (count a multiple of 20), where the code takes the next higher
index. -/
theorem handleMetrics_rttAggregates (st : CANState) (d : MetricsData)
    (h : d.perPairRtt ≠ []) :
    Emit.scalar "can/rtt/mean"
      ((d.perPairRtt.map (fun entry => entry.2.rttMean)).sum /
        ((d.perPairRtt.map (fun entry => entry.2.rttMean)).length : ℚ)) ∈
      (handleMetrics st d).2 ∧
    Emit.scalar "can/rtt/p95"
      ((sortQ (d.perPairRtt.map (fun entry => entry.2.rttMean))).getD
        (aggIdx (d.perPairRtt.map (fun entry => entry.2.rttMean)).length)
        0) ∈
      (handleMetrics st d).2 := by
  have hne : d.perPairRtt.map (fun entry => entry.2.rttMean) ≠ [] := by
    intro hmap
    exact h (List.map_eq_nil_iff.mp hmap)
  constructor <;>
    simp [handleMetrics, aggregateRttEmits, hne, List.mem_append]

/-- Witness for `handleMetrics_rttAggregates` at a one-entry snapshot. -/
theorem handleMetrics_rttAggregates_witness :
    ([(none, { rttMean := 5, rttP95 := 0, timeoutCount := 0,
               sampleCount := 0 })] :
        List (Option (Int × Int) × PairStats)) ≠ [] ∧
    Emit.scalar "can/rtt/mean" ((5 : ℚ) / 1) ∈
      (handleMetrics canInit
        { busLoad := 0, totalFrames := 0, activeIds := 0, errorRate := 0,
          dropRate := 0,
          perPairRtt :=
            [(none, { rttMean := 5, rttP95 := 0, timeoutCount := 0,
                      sampleCount := 0 })],
          perIdStats := [] }).2 := by
  refine ⟨by simp, ?_⟩
  have h := handleMetrics_rttAggregates canInit
    { busLoad := 0, totalFrames := 0, activeIds := 0, errorRate := 0,
      dropRate := 0,
      perPairRtt :=
        [(none, { rttMean := 5, rttP95 := 0, timeoutCount := 0,
                  sampleCount := 0 })],
      perIdStats := [] } (by simp)
  simpa using h.1

/-- C4 counterexample: with 20 pairs whose RTT means are 1..20, the code
emits `sorted[int(20 * 0.95)] = sorted[19] = 20` as the 95th percentile,
while the claim's nearest-rank index is `⌈0.95 × 20⌉ − 1 = 18`, whose
value is 19 ≠ 20. -/
theorem handleMetrics_p95_counterexample :
    firstScalar
      (handleMetrics canInit
        { busLoad := 0, totalFrames := 0, activeIds := 0, errorRate := 0,
          dropRate := 0,
          perPairRtt :=
            [1, 2, 3, 4, 5, 6, 7, 8, 9, 10, 11, 12, 13, 14, 15, 16, 17, 18,
             19, 20].map (fun k : ℚ =>
              (none, { rttMean := k, rttP95 := 0, timeoutCount := 0,
                       sampleCount := 0 })),
          perIdStats := [] }).2 "can/rtt/p95" = some 20 ∧
    Int.ceil ((20 : ℚ) * (19/20)) - 1 = (18 : Int) ∧
    (sortQ ([1, 2, 3, 4, 5, 6, 7, 8, 9, 10, 11, 12, 13, 14, 15, 16, 17, 18,
             19, 20].map (fun k : ℚ => k))).getD 18 0 = 19 ∧
    (20 : ℚ) ≠ 19 := by
  refine ⟨?_, by norm_num, ?_, by norm_num⟩
  · rfl
  · rfl

/-- C7: for every parsed `(send_id, recv_id)` pair, the per-joint RTT and
loss emits are keyed by the registry's joint id for the receive id,
falling back to the send id's joint id, falling back to the raw receive
id; in particular after a mapping message carrying only `can_id_map` and
`joint_names`, the pair `[1, 17]` is recorded under joint id 17 (not the
literal string key) with first loss rate `2/100`. -/
theorem handleMetrics_jointIdResolution :
    (∀ (st : CANState) (sendId recvId : Int) (stats : PairStats),
      (processPair st (some (sendId, recvId)) stats).2.map emitPath =
        ["can/rtt/" ++ toString (resolveJointId st sendId recvId),
         "can/loss/" ++ toString (resolveJointId st sendId recvId)]) ∧
    (∀ (st : CANState) (sendId recvId : Int),
      resolveJointId st sendId recvId =
        ((lookupD st.canIdToJointId recvId).or
          (lookupD st.canIdToJointId sendId)).getD recvId) ∧
    (let st1 := handleMapping canInit
        { jointNames := [(some 1, "shoulder")], jointIds := [],
          canIdMap := [some (1, 17)] }
     let d : MetricsData :=
       { busLoad := 0, totalFrames := 0, activeIds := 0, errorRate := 0,
         dropRate := 0,
         perPairRtt :=
           [(some (1, 17), { rttMean := 5, rttP95 := 0, timeoutCount := 2,
                             sampleCount := 98 })],
         perIdStats := [] }
     firstScalar (handleMetrics st1 d).2 "can/rtt/17" = some 5 ∧
     firstScalar (handleMetrics st1 d).2 "can/loss/17" = some (2/100) ∧
     lookupD (handleMetrics st1 d).1.lastPairCounts 17 = some (2, 98)) := by
  refine ⟨fun st sendId recvId stats => rfl, fun st sendId recvId => ?_, ?_⟩
  · unfold resolveJointId
    cases h1 : lookupD st.canIdToJointId recvId with
    | some jointId => simp [Option.or]
    | none =>
      cases h2 : lookupD st.canIdToJointId sendId with
      | some jointId => simp [Option.or]
      | none => simp [Option.or]
  · refine ⟨?_, ?_, ?_⟩ <;> rfl

/-- C10: a `per_pair_rtt` entry whose key cannot be parsed produces no
per-joint emits and no stored counts, yet its `rtt_mean_ms` still enters
the aggregate RTT mean and 95th percentile: with entries 10 (unparseable
key) and 20 (key `(1, 2)`), the aggregate mean is 15 (not 20) and the p95
is `sorted[int(2 * 0.95)] = 20`, while only joint id 2 gets stored
counts. -/
theorem handleMetrics_unparseableKey :
    (∀ (st : CANState) (stats : PairStats),
      processPair st none stats = (st, [])) ∧
    (let d : MetricsData :=
       { busLoad := 0, totalFrames := 0, activeIds := 0, errorRate := 0,
         dropRate := 0,
         perPairRtt :=
           [(none, { rttMean := 10, rttP95 := 0, timeoutCount := 0,
                     sampleCount := 0 }),
            (some (1, 2), { rttMean := 20, rttP95 := 0, timeoutCount := 0,
                            sampleCount := 0 })],
         perIdStats := [] }
     firstScalar (handleMetrics canInit d).2 "can/rtt/mean" = some 15 ∧
     firstScalar (handleMetrics canInit d).2 "can/rtt/p95" = some 20 ∧
     (handleMetrics canInit d).1.lastPairCounts = [(2, (0, 0))]) := by
  refine ⟨fun st stats => rfl, ?_, ?_, ?_⟩
  · norm_num [handleMetrics, processPairs, processPair, resolveJointId,
      lookupD, insertD, canInit, maxInt, aggregateRttEmits, sortQ,
      insertSorted, aggIdx, processIdStatsAll, updateCanStatus,
      canStatusAndMessage, firstScalar]
    rfl
  · rfl
  · rfl

theorem minNat_eq_min (a b : Nat) : minNat a b = min a b := by
  rw [minNat, Nat.min_def]

theorem absQ_eq_abs (q : ℚ) : absQ q = |q| := by
  rw [absQ]
  split_ifs with h
  · exact (abs_of_neg h).symm
  · exact (abs_of_nonneg (le_of_not_lt h)).symm

theorem posTriples_nil : posTriples [] = [] := rfl

theorem posTriples_append (l1 l2 : List ArmEmit) :
    posTriples (l1 ++ l2) = posTriples l1 ++ posTriples l2 := by
  simp only [posTriples, List.filterMap_append]

theorem velQuads_append (l1 l2 : List ArmEmit) :
    velQuads (l1 ++ l2) = velQuads l1 ++ velQuads l2 := by
  simp only [velQuads, List.filterMap_append]

theorem accScalars_append (l1 l2 : List ArmEmit) :
    accScalars (l1 ++ l2) = accScalars l1 ++ accScalars l2 := by
  simp only [accScalars, List.filterMap_append]

theorem torqueScalars_append (l1 l2 : List ArmEmit) :
    torqueScalars (l1 ++ l2) = torqueScalars l1 ++ torqueScalars l2 := by
  simp only [torqueScalars, List.filterMap_append]

theorem posTriples_styles (names : List String) :
    posTriples (logStaticSeriesStyles names) = [] := by
  induction names with
  | nil => rfl
  | cons n rest ih => simp [logStaticSeriesStyles, posTriples] at ih ⊢

theorem velQuads_styles (names : List String) :
    velQuads (logStaticSeriesStyles names) = [] := by
  induction names with
  | nil => rfl
  | cons n rest ih => simp [logStaticSeriesStyles, velQuads] at ih ⊢

theorem accScalars_styles (names : List String) :
    accScalars (logStaticSeriesStyles names) = [] := by
  induction names with
  | nil => rfl
  | cons n rest ih => simp [logStaticSeriesStyles, accScalars] at ih ⊢

theorem torqueScalars_styles (names : List String) :
    torqueScalars (logStaticSeriesStyles names) = [] := by
  induction names with
  | nil => rfl
  | cons n rest ih => simp [logStaticSeriesStyles, torqueScalars] at ih ⊢

theorem posTriples_sampleJointEmits (traj velFiltered accFiltered
      velBoundary trajVelFiltered : Option (List ℚ))
    (target pos vel torque : List ℚ) (n : Nat) :
    posTriples (sampleJointEmits traj velFiltered accFiltered velBoundary
        trajVelFiltered target pos vel torque n) =
      (List.range n).map (fun i =>
        (jointName i, target.getD i 0, pos.getD i 0, optAt traj i)) := by
  induction n with
  | zero => rfl
  | succ k ih =>
    have hjoint : posTriples (jointEmitsFor traj velFiltered accFiltered
        velBoundary trajVelFiltered target pos vel torque k) =
        [(jointName k, target.getD k 0, pos.getD k 0, optAt traj k)] := by
      cases hacc : optAt accFiltered k <;>
        simp [jointEmitsFor, posTriples, hacc]
    simp only [sampleJointEmits, List.range_succ, List.flatMap_append,
      List.flatMap_cons, List.flatMap_nil, List.append_nil, List.map_append,
      List.map_cons, List.map_nil, posTriples_append] at *
    rw [ih, hjoint]

theorem velQuads_sampleJointEmits (traj velFiltered accFiltered
      velBoundary trajVelFiltered : Option (List ℚ))
    (target pos vel torque : List ℚ) (n : Nat) :
    velQuads (sampleJointEmits traj velFiltered accFiltered velBoundary
        trajVelFiltered target pos vel torque n) =
      (List.range n).map (fun i =>
        (jointName i, vel.getD i 0, (optAt velFiltered i).getD (vel.getD i 0),
         optAt velBoundary i, optAt trajVelFiltered i)) := by
  induction n with
  | zero => rfl
  | succ k ih =>
    have hjoint : velQuads (jointEmitsFor traj velFiltered accFiltered
        velBoundary trajVelFiltered target pos vel torque k) =
        [(jointName k, vel.getD k 0, (optAt velFiltered k).getD (vel.getD k 0),
          optAt velBoundary k, optAt trajVelFiltered k)] := by
      cases hacc : optAt accFiltered k <;>
        simp [jointEmitsFor, velQuads, hacc]
    simp only [sampleJointEmits, List.range_succ, List.flatMap_append,
      List.flatMap_cons, List.flatMap_nil, List.append_nil, List.map_append,
      List.map_cons, List.map_nil, velQuads_append] at *
    rw [ih, hjoint]

theorem accScalars_sampleJointEmits (traj velFiltered accFiltered
      velBoundary trajVelFiltered : Option (List ℚ))
    (target pos vel torque : List ℚ) (n : Nat) :
    accScalars (sampleJointEmits traj velFiltered accFiltered velBoundary
        trajVelFiltered target pos vel torque n) =
      (List.range n).filterMap (fun i =>
        (optAt accFiltered i).map (fun v => (jointName i, v))) := by
  induction n with
  | zero => rfl
  | succ k ih =>
    cases hacc : optAt accFiltered k with
    | none =>
      have hjoint : accScalars (jointEmitsFor traj velFiltered accFiltered
          velBoundary trajVelFiltered target pos vel torque k) = [] := by
        simp [jointEmitsFor, accScalars, hacc]
      simp only [sampleJointEmits, List.range_succ, List.flatMap_append,
        List.flatMap_cons, List.flatMap_nil, List.append_nil,
        List.filterMap_append, List.filterMap_cons, List.filterMap_nil,
        accScalars_append, hacc, Option.map_none] at *
      rw [ih, hjoint]
      simp
    | some v =>
      have hjoint : accScalars (jointEmitsFor traj velFiltered accFiltered
          velBoundary trajVelFiltered target pos vel torque k) =
          [(jointName k, v)] := by
        simp [jointEmitsFor, accScalars, hacc]
      simp only [sampleJointEmits, List.range_succ, List.flatMap_append,
        List.flatMap_cons, List.flatMap_nil, List.append_nil,
        List.filterMap_append, List.filterMap_cons, List.filterMap_nil,
        accScalars_append, hacc, Option.map_some] at *
      rw [ih, hjoint]
      simp

theorem torqueScalars_sampleJointEmits (traj velFiltered accFiltered
      velBoundary trajVelFiltered : Option (List ℚ))
    (target pos vel torque : List ℚ) (n : Nat) :
    torqueScalars (sampleJointEmits traj velFiltered accFiltered velBoundary
        trajVelFiltered target pos vel torque n) =
      (List.range n).map (fun i => (jointName i, torque.getD i 0)) := by
  induction n with
  | zero => rfl
  | succ k ih =>
    have hjoint : torqueScalars (jointEmitsFor traj velFiltered accFiltered
        velBoundary trajVelFiltered target pos vel torque k) =
        [(jointName k, torque.getD k 0)] := by
      cases hacc : optAt accFiltered k <;>
        simp [jointEmitsFor, torqueScalars, hacc]
    simp only [sampleJointEmits, List.range_succ, List.flatMap_append,
      List.flatMap_cons, List.flatMap_nil, List.append_nil, List.map_append,
      List.map_cons, List.map_nil, torqueScalars_append] at *
    rw [ih, hjoint]


/-- `posTriples` and friends ignore the idle-resume emit. -/
theorem posTriples_resumeEmits (c : Bool) :
    posTriples (if c then [ArmEmit.resumedCamera] else []) = [] := by
  cases c <;> rfl

theorem velQuads_resumeEmits (c : Bool) :
    velQuads (if c then [ArmEmit.resumedCamera] else []) = [] := by
  cases c <;> rfl

theorem accScalars_resumeEmits (c : Bool) :
    accScalars (if c then [ArmEmit.resumedCamera] else []) = [] := by
  cases c <;> rfl

theorem torqueScalars_resumeEmits (c : Bool) :
    torqueScalars (if c then [ArmEmit.resumedCamera] else []) = [] := by
  cases c <;> rfl

/-- `posTriples` and friends ignore the one-time layout emits. -/
theorem posTriples_initEmits (c : Bool) (stN : ArmState) (names : List String) :
    posTriples (if c then (sendJointGridBlueprint stN names).2 ++
      logStaticSeriesStyles names else []) = [] := by
  cases c
  · rfl
  · rw [if_pos rfl, posTriples_append, posTriples_styles,
      sendJointGridBlueprint]
    split <;> rfl

theorem velQuads_initEmits (c : Bool) (stN : ArmState) (names : List String) :
    velQuads (if c then (sendJointGridBlueprint stN names).2 ++
      logStaticSeriesStyles names else []) = [] := by
  cases c
  · rfl
  · rw [if_pos rfl, velQuads_append, velQuads_styles,
      sendJointGridBlueprint]
    split <;> rfl

theorem accScalars_initEmits (c : Bool) (stN : ArmState) (names : List String) :
    accScalars (if c then (sendJointGridBlueprint stN names).2 ++
      logStaticSeriesStyles names else []) = [] := by
  cases c
  · rfl
  · rw [if_pos rfl, accScalars_append, accScalars_styles,
      sendJointGridBlueprint]
    split <;> rfl

theorem torqueScalars_initEmits (c : Bool) (stN : ArmState) (names : List String) :
    torqueScalars (if c then (sendJointGridBlueprint stN names).2 ++
      logStaticSeriesStyles names else []) = [] := by
  cases c
  · rfl
  · rw [if_pos rfl, torqueScalars_append, torqueScalars_styles,
      sendJointGridBlueprint]
    split <;> rfl

/-- C5: for a sample message whose four required vectors are lists, the
joints fanned out are exactly indices `0..n-1` with
`n = min(len(target), len(pos), len(vel), len(torque))`, and every
optional vector (traj, vel_filtered, acc_filtered, vel_boundary,
traj_vel_filtered) is consulted only at indices below its own length:
at or beyond it the value is treated as absent (`optAt` returns `none`),
never an error. -/
theorem processSample_fanout (st : ArmState) (now : ℚ) (data : SampleData)
    (target pos vel torque : List ℚ)
    (ht : data.target = some target) (hp : data.pos = some pos)
    (hv : data.vel = some vel) (hq : data.torque = some torque) :
    posTriples (processMessage st now (.sample data)).2 =
      (List.range (min (min (min target.length pos.length) vel.length)
        torque.length)).map
        (fun i => (jointName i, target.getD i 0, pos.getD i 0,
          optAt data.traj i)) ∧
    velQuads (processMessage st now (.sample data)).2 =
      (List.range (min (min (min target.length pos.length) vel.length)
        torque.length)).map
        (fun i => (jointName i, vel.getD i 0,
          (optAt data.velFiltered i).getD (vel.getD i 0),
          optAt data.velBoundary i, optAt data.trajVelFiltered i)) ∧
    accScalars (processMessage st now (.sample data)).2 =
      (List.range (min (min (min target.length pos.length) vel.length)
        torque.length)).filterMap
        (fun i => (optAt data.accFiltered i).map (fun v => (jointName i, v))) ∧
    torqueScalars (processMessage st now (.sample data)).2 =
      (List.range (min (min (min target.length pos.length) vel.length)
        torque.length)).map
        (fun i => (jointName i, torque.getD i 0)) := by
  simp only [processMessage, ht, hp, hv, hq, minNat_eq_min]
  refine ⟨?_, ?_, ?_, ?_⟩ <;>
    simp only [posTriples_append, velQuads_append, accScalars_append,
      torqueScalars_append, posTriples_resumeEmits, velQuads_resumeEmits,
      accScalars_resumeEmits, torqueScalars_resumeEmits,
      posTriples_initEmits, velQuads_initEmits, accScalars_initEmits,
      torqueScalars_initEmits, posTriples_sampleJointEmits,
      velQuads_sampleJointEmits, accScalars_sampleJointEmits,
      torqueScalars_sampleJointEmits, List.nil_append]

/-- Witness for `processSample_fanout`: a concrete sample with required
lengths 2,2,2,3 (so n = 2) and a one-element `traj`. -/
theorem processSample_fanout_witness :
    (let data : SampleData :=
      { target := some [1, 2], traj := some [5], pos := some [3, 4],
        vel := some [6, 7], torque := some [8, 9, 10], jointNames := none,
        velFiltered := none, accFiltered := none, velBoundary := none,
        trajVelFiltered := none }
     data.target = some [1, 2] ∧
     posTriples (processMessage (armInit none false 0) 0 (.sample data)).2 =
       (List.range (min (min (min 2 2) 2) 3)).map
         (fun i => (jointName i, ([1, 2] : List ℚ).getD i 0,
           ([3, 4] : List ℚ).getD i 0, optAt (some [5]) i))) := by
  refine ⟨rfl, ?_⟩
  exact (processSample_fanout (armInit none false 0) 0 _ [1, 2] [3, 4]
    [6, 7] [8, 9, 10] rfl rfl rfl rfl).1


theorem sampleJointEmits_jointData (traj velFiltered accFiltered velBoundary
      trajVelFiltered : Option (List ℚ)) (target pos vel torque : List ℚ)
    (n : Nat) :
    ∀ e ∈ sampleJointEmits traj velFiltered accFiltered velBoundary
      trajVelFiltered target pos vel torque n, isJointData e = true := by
  intro e he
  rw [sampleJointEmits, List.mem_flatMap] at he
  obtain ⟨i, _, hi⟩ := he
  cases hacc : optAt accFiltered i with
  | none =>
    simp [jointEmitsFor, hacc] at hi
    rcases hi with rfl | rfl | rfl | rfl <;> rfl
  | some v =>
    simp [jointEmitsFor, hacc] at hi
    rcases hi with rfl | rfl | rfl | rfl | rfl <;> rfl

theorem countP_isBlueprint_styles (names : List String) :
    (logStaticSeriesStyles names).countP isBlueprint = 0 := by
  induction names with
  | nil => rfl
  | cons a l ih => simp_all [logStaticSeriesStyles, List.countP_cons, isBlueprint]

/-- C8 (amended): the joint identifiers used for the per-joint fan-out are
the synthetic positional names `j1..jn` and the caller-supplied
`joint_names` field is ignored entirely; once the layout has been sent
(`_blueprint_sent`), no later sample re-sends it and the flag stays set;
and once the joint-name list is non-empty, every later sample leaves it
unchanged. (A valid sample with n = 0 consumes the one-time layout while
leaving the list unestablished — see the counterexample.) -/
theorem processSample_oneTimeInit (st : ArmState) (now : ℚ)
    (data : SampleData) (x : Option (List String))
    (target pos vel torque : List ℚ)
    (ht : data.target = some target) (hp : data.pos = some pos)
    (hv : data.vel = some vel) (hq : data.torque = some torque) :
    processMessage st now (.sample { data with jointNames := x }) =
      processMessage st now (.sample data) ∧
    (posTriples (processMessage st now (.sample data)).2).map Prod.fst =
      (List.range (min (min (min target.length pos.length) vel.length)
        torque.length)).map jointName ∧
    (st.jointNames ≠ [] →
      (processMessage st now (.sample data)).1.jointNames = st.jointNames) ∧
    (st.blueprintSent = true →
      (processMessage st now (.sample data)).2.countP isBlueprint = 0 ∧
      (processMessage st now (.sample data)).1.blueprintSent = true) := by
  refine ⟨?_, ?_, ?_, ?_⟩
  · simp only [processMessage, ht, hp, hv, hq]
  · simp only [processMessage, ht, hp, hv, hq, minNat_eq_min,
      posTriples_append, posTriples_resumeEmits, posTriples_initEmits,
      posTriples_sampleJointEmits, List.nil_append, List.map_map]
    simp [Function.comp]
  · intro h
    cases hl : st.jointNames with
    | nil => exact absurd hl h
    | cons a l =>
      simp only [processMessage, ht, hp, hv, hq]
      split_ifs <;> simp_all [sendJointGridBlueprint]
  · intro hbp
    have hjd := sampleJointEmits_jointData data.traj data.velFiltered
      data.accFiltered data.velBoundary data.trajVelFiltered
      target pos vel torque
      (minNat (minNat (minNat target.length pos.length) vel.length)
        torque.length)
    have hcount : (sampleJointEmits data.traj data.velFiltered
        data.accFiltered data.velBoundary data.trajVelFiltered
        target pos vel torque
        (minNat (minNat (minNat target.length pos.length) vel.length)
          torque.length)).countP isBlueprint = 0 := by
      rw [List.countP_eq_zero]
      intro e he
      have := hjd e he
      cases e <;> simp_all [isJointData, isBlueprint]
    constructor
    · simp only [processMessage, ht, hp, hv, hq]
      split_ifs <;>
        simp_all [List.countP_append, sendJointGridBlueprint,
          countP_isBlueprint_styles, isBlueprint]
    · simp only [processMessage, ht, hp, hv, hq]
      split_ifs <;> simp_all [sendJointGridBlueprint]

/-- C8 counterexample: from a fresh connection, a first valid sample whose
four required vectors are all empty (n = 0) consumes the one-time layout
initialization (for 0 joints) yet establishes no joint names; the next
valid sample then changes the established joint-name list from `[]` to
`[j1]`, so not every sample after the first valid one leaves the list and
layout unchanged. -/
theorem processSample_jointNames_counterexample :
    (armStep (armInit none false 0) 1
      ⟨false, some (.sample
        ⟨some [], none, some [], some [], some [], none, none, none, none,
         none⟩)⟩).1.jointNames = [] ∧
    (armStep (armInit none false 0) 1
      ⟨false, some (.sample
        ⟨some [], none, some [], some [], some [], none, none, none, none,
         none⟩)⟩).1.blueprintSent = true ∧
    ArmEmit.jointGridBlueprint [] ∈
      (armStep (armInit none false 0) 1
        ⟨false, some (.sample
          ⟨some [], none, some [], some [], some [], none, none, none, none,
           none⟩)⟩).2 ∧
    (armStep
      (armStep (armInit none false 0) 1
        ⟨false, some (.sample
          ⟨some [], none, some [], some [], some [], none, none, none, none,
           none⟩)⟩).1 2
      ⟨false, some (.sample
        ⟨some [0], none, some [0], some [0], some [0], none, none, none,
         none, none⟩)⟩).1.jointNames = ["j1"] := by
  refine ⟨rfl, rfl, ?_, ?_⟩ <;> decide

/-- Witness for `processSample_oneTimeInit`: a server that already has
joint names `[j1]` and a sent layout processes a sample carrying a
caller-supplied joint name; the stored list is unchanged and no layout is
re-sent. -/
theorem processSample_oneTimeInit_witness :
    ({ idleTimeoutS := none, dropCameraWhenIdle := false,
       lastArmSampleMonoS := 0, loggedIdleForCamera := false,
       jointNames := ["j1"], blueprintSent := true } : ArmState).jointNames ≠
        [] ∧
    (processMessage
      { idleTimeoutS := none, dropCameraWhenIdle := false,
        lastArmSampleMonoS := 0, loggedIdleForCamera := false,
        jointNames := ["j1"], blueprintSent := true } 0
      (.sample ⟨some [1], none, some [2], some [3], some [4],
        some ["ignored"], none, none, none, none⟩)).1.jointNames =
      ["j1"] ∧
    (processMessage
      { idleTimeoutS := none, dropCameraWhenIdle := false,
        lastArmSampleMonoS := 0, loggedIdleForCamera := false,
        jointNames := ["j1"], blueprintSent := true } 0
      (.sample ⟨some [1], none, some [2], some [3], some [4],
        some ["ignored"], none, none, none, none⟩)).2.countP isBlueprint =
      0 := by
  refine ⟨by decide, ?_, ?_⟩
  · exact (processSample_oneTimeInit _ 0 _ none [1] [2] [3] [4]
      rfl rfl rfl rfl).2.2.1 (by decide)
  · exact ((processSample_oneTimeInit _ 0 _ none [1] [2] [3] [4]
      rfl rfl rfl rfl).2.2.2 rfl).1


theorem countP_isResumed_sampleJointEmits (traj velFiltered accFiltered
      velBoundary trajVelFiltered : Option (List ℚ))
    (target pos vel torque : List ℚ) (n : Nat) :
    (sampleJointEmits traj velFiltered accFiltered velBoundary
      trajVelFiltered target pos vel torque n).countP isResumed = 0 := by
  rw [List.countP_eq_zero]
  intro e he
  have := sampleJointEmits_jointData traj velFiltered accFiltered
    velBoundary trajVelFiltered target pos vel torque n e he
  cases e <;> simp_all [isJointData, isResumed]

theorem countP_isResumed_styles (names : List String) :
    (logStaticSeriesStyles names).countP isResumed = 0 := by
  induction names with
  | nil => rfl
  | cons a l ih => simp_all [logStaticSeriesStyles, List.countP_cons, isResumed]

/-- C6: with camera-drop enabled and an idle timeout configured, while the
tracker is idle every camera_frame line — whether caught by the raw-bytes
fast path (marker) or decoded — is dropped without decoding its payload
(no image event); exactly one "pausing" event is emitted on the first
dropped frame of the idle span and none once the idle-logged flag is set,
which the drop установ; and a sample arriving while the flag is set and the
tracker is still idle emits exactly one "resumed" event and clears the
flag. -/
theorem armIdleCameraSpan (st : ArmState) (now now2 : ℚ)
    (hdrop : st.dropCameraWhenIdle = true)
    (hto : st.idleTimeoutS.isSome = true)
    (hidle : armIsActive st now = false) :
    (∀ line : RawLine,
      (line.hasCameraMarker = true ∨
        ∃ name position jpeg,
          line.decoded = some (.cameraFrame name position jpeg)) →
      (armStep st now line).2.countP isImage = 0 ∧
      (armStep st now line).2.countP isPausing =
        (if st.loggedIdleForCamera then 0 else 1) ∧
      (armStep st now line).1 = { st with loggedIdleForCamera := true }) ∧
    (∀ data : SampleData,
      st.loggedIdleForCamera = true →
      armIsActive st now2 = false →
      (armStep st now2 ⟨false, some (.sample data)⟩).2.countP isResumed =
        1 ∧
      (armStep st now2 ⟨false, some (.sample data)⟩).1.loggedIdleForCamera =
        false) := by
  obtain ⟨ito, dci, last, logged, jnames, bps⟩ := st
  subst hdrop
  constructor
  · rintro ⟨marker, decoded⟩ hline
    cases marker with
    | true =>
      cases logged <;>
        simp [armStep, hto, hidle, logPausingOnce, isImage, isPausing]
    | false =>
      rcases hline with h | ⟨name, position, jpeg, hdec⟩
      · exact absurd h (by simp)
      · subst hdec
        cases logged <;>
          simp [armStep, processMessage, hto, hidle, logPausingOnce,
            isImage, isPausing]
  · intro data hlog hidle2
    subst hlog
    obtain ⟨t, tr, p, v, q, jn, vf, af, vb, tvf⟩ := data
    cases t <;> cases p <;> cases v <;> cases q <;>
      (simp [armStep, processMessage, hto, hidle2, List.countP_append,
        countP_isResumed_sampleJointEmits, countP_isResumed_styles,
        sendJointGridBlueprint, isResumed]
       try (split_ifs <;>
         simp_all [List.countP_cons, isResumed, logStaticSeriesStyles]))

/-- Witness for `armIdleCameraSpan`: timeout 1s, last sample at 0; a
marker-bearing camera line at t = 2 is dropped with one "pausing" event,
and (from the logged state) a sample at t = 3 emits one "resumed"
event. -/
theorem armIdleCameraSpan_witness :
    armIsActive
      { idleTimeoutS := some 1, dropCameraWhenIdle := true,
        lastArmSampleMonoS := 0, loggedIdleForCamera := false,
        jointNames := [], blueprintSent := false } 2 = false ∧
    (armStep
      { idleTimeoutS := some 1, dropCameraWhenIdle := true,
        lastArmSampleMonoS := 0, loggedIdleForCamera := false,
        jointNames := [], blueprintSent := false } 2
      ⟨true, none⟩).2.countP isPausing = 1 ∧
    (armStep
      { idleTimeoutS := some 1, dropCameraWhenIdle := true,
        lastArmSampleMonoS := 0, loggedIdleForCamera := true,
        jointNames := [], blueprintSent := false } 3
      ⟨false, some (.sample
        ⟨none, none, none, none, none, none, none, none, none,
         none⟩)⟩).2.countP isResumed = 1 := by
  have hidle1 : armIsActive
      { idleTimeoutS := some 1, dropCameraWhenIdle := true,
        lastArmSampleMonoS := 0, loggedIdleForCamera := false,
        jointNames := [], blueprintSent := false } 2 = false := by
    norm_num [armIsActive]
  have hidle2 : armIsActive
      { idleTimeoutS := some 1, dropCameraWhenIdle := true,
        lastArmSampleMonoS := 0, loggedIdleForCamera := true,
        jointNames := [], blueprintSent := false } 3 = false := by
    norm_num [armIsActive]
  refine ⟨hidle1, ?_, ?_⟩
  · have h := (armIdleCameraSpan
      { idleTimeoutS := some 1, dropCameraWhenIdle := true,
        lastArmSampleMonoS := 0, loggedIdleForCamera := false,
        jointNames := [], blueprintSent := false } 2 3 rfl rfl hidle1).1
      ⟨true, none⟩ (Or.inl rfl)
    simpa using h.2.1
  · exact ((armIdleCameraSpan
      { idleTimeoutS := some 1, dropCameraWhenIdle := true,
        lastArmSampleMonoS := 0, loggedIdleForCamera := true,
        jointNames := [], blueprintSent := false } 3 3 rfl rfl hidle2).2
      ⟨none, none, none, none, none, none, none, none, none, none⟩
      rfl hidle2).1

/-- C9: with camera-drop and an idle timeout configured, a sample message
whose required vectors fail validation (some field missing or not a list)
still records the arrival time as the last-sample time — refreshing the
idle timer — and, if the tracker was idle with the idle-logged flag set,
still emits the single "resumed" event and clears the flag, even though
no per-joint data is emitted. -/
theorem processSample_invalidStillRefreshes (st : ArmState) (now : ℚ)
    (data : SampleData)
    (hdrop : st.dropCameraWhenIdle = true)
    (hto : st.idleTimeoutS.isSome = true)
    (hbad : data.target = none ∨ data.pos = none ∨ data.vel = none ∨
      data.torque = none) :
    (armStep st now ⟨false, some (.sample data)⟩).1.lastArmSampleMonoS =
      now ∧
    posTriples (armStep st now ⟨false, some (.sample data)⟩).2 = [] ∧
    (armIsActive st now = false →
      (armStep st now ⟨false, some (.sample data)⟩).1.loggedIdleForCamera =
        false ∧
      (armStep st now ⟨false, some (.sample data)⟩).2 =
        (if st.loggedIdleForCamera then [ArmEmit.resumedCamera] else [])) := by
  obtain ⟨ito, dci, last, logged, jnames, bps⟩ := st
  subst hdrop
  obtain ⟨t, tr, p, v, q, jn, vf, af, vb, tvf⟩ := data
  refine ⟨?_, ?_, ?_⟩
  · cases t <;> cases p <;> cases v <;> cases q <;>
      (simp [armStep, processMessage, hto, sendJointGridBlueprint]
       try (split_ifs <;> rfl))
  · cases t <;> cases p <;> cases v <;> cases q <;> simp at hbad <;>
      (simp [armStep, processMessage, hto]
       try (split_ifs <;> rfl))
  · intro hidle
    cases t <;> cases p <;> cases v <;> cases q <;> simp at hbad <;>
      simp [armStep, processMessage, hto, hidle]

/-- Witness for `processSample_invalidStillRefreshes`: an idle, logged
server receives a sample with no vectors at t = 2; the timer refreshes to
2 and one "resumed" event is emitted. -/
theorem processSample_invalidStillRefreshes_witness :
    armIsActive
      { idleTimeoutS := some 1, dropCameraWhenIdle := true,
        lastArmSampleMonoS := 0, loggedIdleForCamera := true,
        jointNames := [], blueprintSent := false } 2 = false ∧
    (armStep
      { idleTimeoutS := some 1, dropCameraWhenIdle := true,
        lastArmSampleMonoS := 0, loggedIdleForCamera := true,
        jointNames := [], blueprintSent := false } 2
      ⟨false, some (.sample
        ⟨none, none, none, none, none, none, none, none, none,
         none⟩)⟩).1.lastArmSampleMonoS = 2 ∧
    (armStep
      { idleTimeoutS := some 1, dropCameraWhenIdle := true,
        lastArmSampleMonoS := 0, loggedIdleForCamera := true,
        jointNames := [], blueprintSent := false } 2
      ⟨false, some (.sample
        ⟨none, none, none, none, none, none, none, none, none,
         none⟩)⟩).2 = [ArmEmit.resumedCamera] := by
  have hidle : armIsActive
      { idleTimeoutS := some 1, dropCameraWhenIdle := true,
        lastArmSampleMonoS := 0, loggedIdleForCamera := true,
        jointNames := [], blueprintSent := false } 2 = false := by
    norm_num [armIsActive]
  have h := processSample_invalidStillRefreshes
    { idleTimeoutS := some 1, dropCameraWhenIdle := true,
      lastArmSampleMonoS := 0, loggedIdleForCamera := true,
      jointNames := [], blueprintSent := false } 2
    ⟨none, none, none, none, none, none, none, none, none, none⟩
    rfl rfl (Or.inl rfl)
  refine ⟨hidle, h.1, ?_⟩
  have h2 := (h.2.2 hidle).2
  simpa using h2

end DataarmNotifier
